import Mathlib

/-!
Shallow embedding of `src/utils/cannyLaneDetector.py`.

The Python module defines two classes:
* `helperFunction`, whose method `createGaussianKernel` builds a normalized
  2D Gaussian kernel from a spread parameter `sigma`;
* `cannyLaneDetector`, whose methods `rgbToGrayScratch` (manual grayscale
  conversion) and `applyGaussianBlurScratch` (Gaussian smoothing stage)
  operate on numpy arrays.

Numpy arrays are modelled by `PyImage`: rank-2 and rank-3 arrays carry their
shape and a total entry function into `ℝ` (floating-point values are modelled
as exact reals); `PyImage.other n` stands for an array of any other rank `n`
(a rank that is neither 2 nor 3).  Python exceptions are modelled by
`Except PyError`.  Neither class method reads or writes any mutable state, so
each method is embedded as a plain function of its arguments.
-/

/-- Kinds of Python exception the embedded functions can raise. -/
inductive PyError where
  | typeError
  | valueError
  | indexError
deriving DecidableEq

/-- A numpy ndarray as used by the detector.  `img2 h w d` is a rank-2 array
of shape `h × w` with entries `d y x`; `img3 h w c d` is a rank-3 array of
shape `h × w × c` with entries `d y x ch`; `other n` stands for an array of
any other rank `n` (neither 2 nor 3). -/
inductive PyImage where
  | img2 (h w : ℕ) (data : ℕ → ℕ → ℝ)
  | img3 (h w c : ℕ) (data : ℕ → ℕ → ℕ → ℝ)
  | other (n : ℕ)

/-- The `ndim` attribute of the array. -/
def PyImage.ndim : PyImage → ℕ
  | .img2 _ _ _ => 2
  | .img3 _ _ _ _ => 3
  | .other n => n

/-- Sum of all entries of a rank-2 array (`np.sum` over both axes). -/
noncomputable def PyImage.entrySum : PyImage → ℝ
  | .img2 h w d => ∑ y ∈ Finset.range h, ∑ x ∈ Finset.range w, d y x
  | _ => 0

namespace helperFunction

/-- The integer `int(2 * np.ceil(sigma) + 1)` computed by
`createGaussianKernel`.  `np.ceil` returns an integer-valued float, so the
truncation by `int` is exact and the value is `2⌈sigma⌉ + 1` as an integer
(possibly negative for negative `sigma`). -/
noncomputable def kernelSizeZ (sigma : ℝ) : ℤ := 2 * ⌈sigma⌉ + 1

/-- The kernel side length as a natural number (the shape passed to
`np.zeros` when it is nonnegative). -/
noncomputable def kernelSizeN (sigma : ℝ) : ℕ := (kernelSizeZ sigma).toNat

/-- `center = kernel_size // 2`. -/
noncomputable def center (sigma : ℝ) : ℕ := kernelSizeN sigma / 2

/-- The entry written into `kernel[y, x]` inside the double loop, before
normalization: with `dx = x - center` and `dy = y - center`,
`(1 / (2 * pi * sigma ** 2)) * exp(-(dx ** 2 + dy ** 2) / (2 * sigma ** 2))`. -/
noncomputable def kernelUnnorm (sigma : ℝ) (y x : ℕ) : ℝ :=
  1 / (2 * Real.pi * sigma ^ 2) *
    Real.exp (-(((x : ℝ) - (center sigma : ℝ)) ^ 2 +
        ((y : ℝ) - (center sigma : ℝ)) ^ 2) / (2 * sigma ^ 2))

/-- `np.sum(kernel)` over the whole unnormalized kernel. -/
noncomputable def kernelSum (sigma : ℝ) : ℝ :=
  ∑ y ∈ Finset.range (kernelSizeN sigma),
    ∑ x ∈ Finset.range (kernelSizeN sigma), kernelUnnorm sigma y x

/-- Entry of the returned kernel after `kernel /= np.sum(kernel)`. -/
noncomputable def kernelNorm (sigma : ℝ) (y x : ℕ) : ℝ :=
  kernelUnnorm sigma y x / kernelSum sigma

/-- `helperFunction.createGaussianKernel(sigma)`.  The method performs no
validation of `sigma`: it computes `kernel_size = int(2 * np.ceil(sigma) + 1)`
and calls `np.zeros((kernel_size, kernel_size))`, which raises `ValueError`
when `kernel_size` is negative; otherwise it fills the kernel with the
Gaussian values and divides by their sum. -/
noncomputable def createGaussianKernel (sigma : ℝ) : Except PyError PyImage :=
  if kernelSizeZ sigma < 0 then .error .valueError
  else .ok (.img2 (kernelSizeN sigma) (kernelSizeN sigma)
    fun y x => kernelNorm sigma y x)

end helperFunction

namespace cannyLaneDetector

/-- `cannyLaneDetector.rgbToGrayScratch(img)`.  On a rank-3 array the code
executes `r, g, b = img[:, :, 0], img[:, :, 1], img[:, :, 3]` and returns
`0.2989 * r + 0.5870 * g + 0.1140 * b`; the access `img[:, :, 3]` raises
`IndexError` unless the last axis has more than 3 entries.  A rank-2 array is
returned unchanged (`astype(np.float32)` is exact on the modelled reals).
Any other rank raises `ValueError`. -/
noncomputable def rgbToGrayScratch (img : PyImage) : Except PyError PyImage :=
  match img with
  | .img3 h w c d =>
      if 3 < c then
        .ok (.img2 h w fun y x =>
          0.2989 * d y x 0 + 0.5870 * d y x 1 + 0.1140 * d y x 3)
      else .error .indexError
  | .img2 h w d => .ok (.img2 h w d)
  | .other _ => .error .valueError

/-- `cannyLaneDetector.applyGaussianBlurScratch(img, sigma)`.  The method
raises `ValueError` when `img.ndim != 2`; otherwise it builds the Gaussian
kernel via `helperFunction.createGaussianKernel` and returns that kernel
(the convolution with the input image is never performed). -/
noncomputable def applyGaussianBlurScratch (img : PyImage) (sigma : ℝ) :
    Except PyError PyImage :=
  match img with
  | .img2 _ _ _ => helperFunction.createGaussianKernel sigma
  | _ => .error .valueError

end cannyLaneDetector

namespace helperFunction

/-- For positive `sigma` the ceiling is at least 1. -/
theorem one_le_ceil_of_pos {sigma : ℝ} (hs : 0 < sigma) : 1 ≤ ⌈sigma⌉ :=
  Int.ceil_pos.mpr hs

/-- For positive `sigma` the integer kernel size is `2⌈sigma⌉ + 1 ≥ 3`. -/
theorem kernelSizeZ_nonneg {sigma : ℝ} (hs : 0 < sigma) :
    0 ≤ kernelSizeZ sigma := by
  have h := one_le_ceil_of_pos hs
  unfold kernelSizeZ
  omega

/-- For positive `sigma` the kernel side is positive. -/
theorem kernelSizeN_pos {sigma : ℝ} (hs : 0 < sigma) : 0 < kernelSizeN sigma := by
  have h := one_le_ceil_of_pos hs
  unfold kernelSizeN kernelSizeZ
  omega

/-- Every unnormalized kernel entry is strictly positive for positive
`sigma`. -/
theorem kernelUnnorm_pos {sigma : ℝ} (hs : 0 < sigma) (y x : ℕ) :
    0 < kernelUnnorm sigma y x := by
  unfold kernelUnnorm
  have hpi := Real.pi_pos
  positivity

/-- The total mass of the unnormalized kernel is strictly positive for
positive `sigma`. -/
theorem kernelSum_pos {sigma : ℝ} (hs : 0 < sigma) : 0 < kernelSum sigma := by
  unfold kernelSum
  have hne : (Finset.range (kernelSizeN sigma)).Nonempty :=
    Finset.nonempty_range_iff.mpr (by have := kernelSizeN_pos hs; omega)
  refine Finset.sum_pos (fun y _ => ?_) hne
  exact Finset.sum_pos (fun x _ => kernelUnnorm_pos hs y x) hne

/-- The entries of the returned kernel sum to exactly 1 for positive
`sigma`. -/
theorem sum_kernelNorm {sigma : ℝ} (hs : 0 < sigma) :
    ∑ y ∈ Finset.range (kernelSizeN sigma),
      ∑ x ∈ Finset.range (kernelSizeN sigma), kernelNorm sigma y x = 1 := by
  have hS : kernelSum sigma ≠ 0 := ne_of_gt (kernelSum_pos hs)
  simp only [kernelNorm, ← Finset.sum_div]
  exact div_self hS

/-- The cast of the kernel side back to `ℤ` recovers `2⌈sigma⌉ + 1` when
`sigma` is positive. -/
theorem kernelSizeN_cast {sigma : ℝ} (hs : 0 < sigma) :
    (kernelSizeN sigma : ℤ) = 2 * ⌈sigma⌉ + 1 := by
  have h := one_le_ceil_of_pos hs
  unfold kernelSizeN kernelSizeZ
  omega

/-- The unnormalized entry at offset `(dx, dy)` from the center is the
Gaussian density value at that offset. -/
theorem kernelUnnorm_offset (sigma : ℝ) (dx dy : ℤ)
    (hdx : 0 ≤ (center sigma : ℤ) + dx) (hdy : 0 ≤ (center sigma : ℤ) + dy) :
    kernelUnnorm sigma (((center sigma : ℤ) + dy).toNat)
        (((center sigma : ℤ) + dx).toNat) =
      Real.exp (-((dx : ℝ) ^ 2 + (dy : ℝ) ^ 2) / (2 * sigma ^ 2)) /
        (2 * Real.pi * sigma ^ 2) := by
  have hx : ((((center sigma : ℤ) + dx).toNat : ℕ) : ℝ) =
      (center sigma : ℝ) + (dx : ℝ) := by
    exact_mod_cast Int.toNat_of_nonneg hdx
  have hy : ((((center sigma : ℤ) + dy).toNat : ℕ) : ℝ) =
      (center sigma : ℝ) + (dy : ℝ) := by
    exact_mod_cast Int.toNat_of_nonneg hdy
  unfold kernelUnnorm
  rw [hx, hy,
    show (center sigma : ℝ) + (dx : ℝ) - (center sigma : ℝ) = (dx : ℝ) by ring,
    show (center sigma : ℝ) + (dy : ℝ) - (center sigma : ℝ) = (dy : ℝ) by ring,
    one_div_mul_eq_div]

end helperFunction

/-- C5: for every sigma > 0, the kernel returned by `createGaussianKernel`
is returned normally and the sum of all its entries equals 1 (exactly, in
the real-number model of floating point). -/
theorem createGaussianKernel_sum_one (sigma : ℝ) (hs : 0 < sigma) :
    ∃ K, helperFunction.createGaussianKernel sigma = .ok K ∧ K.entrySum = 1 := by
  refine ⟨.img2 (helperFunction.kernelSizeN sigma) (helperFunction.kernelSizeN sigma)
    (fun y x => helperFunction.kernelNorm sigma y x), ?_, ?_⟩
  · unfold helperFunction.createGaussianKernel
    rw [if_neg (by have := helperFunction.kernelSizeZ_nonneg hs; omega)]
  · show (∑ y ∈ Finset.range (helperFunction.kernelSizeN sigma),
      ∑ x ∈ Finset.range (helperFunction.kernelSizeN sigma),
        helperFunction.kernelNorm sigma y x) = 1
    exact helperFunction.sum_kernelNorm hs

/-- Witness for C5 at sigma = 1. -/
theorem createGaussianKernel_sum_one_witness :
    0 < (1 : ℝ) ∧
      ∃ K, helperFunction.createGaussianKernel 1 = .ok K ∧ K.entrySum = 1 :=
  ⟨by norm_num, createGaussianKernel_sum_one 1 (by norm_num)⟩

/-- C6: for every sigma > 0, `createGaussianKernel` returns a square kernel
of odd side `k = 2⌈sigma⌉ + 1` centered at index `(k - 1) / 2` in both axes,
and the unnormalized entry at offset `(dx, dy)` from the center equals
`exp(-(dx² + dy²) / (2 sigma²)) / (2 π sigma²)`. -/
theorem createGaussianKernel_shape_center_values (sigma : ℝ) (hs : 0 < sigma)
    (dx dy : ℤ) (hdx : dx.natAbs ≤ helperFunction.center sigma)
    (hdy : dy.natAbs ≤ helperFunction.center sigma) :
    helperFunction.createGaussianKernel sigma =
      .ok (.img2 (helperFunction.kernelSizeN sigma) (helperFunction.kernelSizeN sigma)
        fun y x => helperFunction.kernelNorm sigma y x) ∧
    (helperFunction.kernelSizeN sigma : ℤ) = 2 * ⌈sigma⌉ + 1 ∧
    Odd (helperFunction.kernelSizeN sigma) ∧
    helperFunction.center sigma = (helperFunction.kernelSizeN sigma - 1) / 2 ∧
    helperFunction.kernelUnnorm sigma (((helperFunction.center sigma : ℤ) + dy).toNat)
        (((helperFunction.center sigma : ℤ) + dx).toNat) =
      Real.exp (-((dx : ℝ) ^ 2 + (dy : ℝ) ^ 2) / (2 * sigma ^ 2)) /
        (2 * Real.pi * sigma ^ 2) := by
  have h1 := helperFunction.one_le_ceil_of_pos hs
  refine ⟨?_, helperFunction.kernelSizeN_cast hs, ?_, ?_, ?_⟩
  · unfold helperFunction.createGaussianKernel
    rw [if_neg (by have := helperFunction.kernelSizeZ_nonneg hs; omega)]
  · rw [Nat.odd_iff]
    unfold helperFunction.kernelSizeN helperFunction.kernelSizeZ
    omega
  · unfold helperFunction.center helperFunction.kernelSizeN helperFunction.kernelSizeZ
    omega
  · exact helperFunction.kernelUnnorm_offset sigma dx dy (by omega) (by omega)

/-- Witness for C6 at sigma = 1, dx = dy = 0. -/
theorem createGaussianKernel_shape_center_values_witness :
    0 < (1 : ℝ) ∧ (0 : ℤ).natAbs ≤ helperFunction.center 1 ∧
      (helperFunction.createGaussianKernel 1 =
        .ok (.img2 (helperFunction.kernelSizeN 1) (helperFunction.kernelSizeN 1)
          fun y x => helperFunction.kernelNorm 1 y x) ∧
      (helperFunction.kernelSizeN 1 : ℤ) = 2 * ⌈(1 : ℝ)⌉ + 1 ∧
      Odd (helperFunction.kernelSizeN 1) ∧
      helperFunction.center 1 = (helperFunction.kernelSizeN 1 - 1) / 2 ∧
      helperFunction.kernelUnnorm 1 (((helperFunction.center 1 : ℤ) + 0).toNat)
          (((helperFunction.center 1 : ℤ) + 0).toNat) =
        Real.exp (-(((0 : ℤ) : ℝ) ^ 2 + ((0 : ℤ) : ℝ) ^ 2) / (2 * (1 : ℝ) ^ 2)) /
          (2 * Real.pi * (1 : ℝ) ^ 2)) :=
  ⟨by norm_num, Nat.zero_le _,
    createGaussianKernel_shape_center_values 1 (by norm_num) 0 0
      (Nat.zero_le _) (Nat.zero_le _)⟩

/-- C9: `createGaussianKernel` is deterministic and reads no state: two
calls with equal sigma return identical kernels. -/
theorem createGaussianKernel_deterministic (s1 s2 : ℝ) (h : s1 = s2) :
    helperFunction.createGaussianKernel s1 = helperFunction.createGaussianKernel s2 := by
  rw [h]

/-- Witness for C9 at sigma = 1. -/
theorem createGaussianKernel_deterministic_witness :
    (1 : ℝ) = 1 ∧
      helperFunction.createGaussianKernel 1 = helperFunction.createGaussianKernel 1 :=
  ⟨rfl, createGaussianKernel_deterministic 1 1 rfl⟩

/-- C4 is violated by the code: `createGaussianKernel` performs no
validation of sigma.  At sigma = -1/2 (which is ≤ 0) it raises nothing and
returns the 1×1 kernel whose single entry is 1. -/
theorem createGaussianKernel_no_sigma_validation :
    (-(1 / 2) : ℝ) ≤ 0 ∧
      ∃ d, helperFunction.createGaussianKernel (-(1 / 2)) = .ok (.img2 1 1 d) ∧
        d 0 0 = 1 := by
  have hceil : ⌈(-(1 / 2) : ℝ)⌉ = 0 := by
    rw [Int.ceil_eq_zero_iff, Set.mem_Ioc]
    constructor <;> norm_num
  have hz : helperFunction.kernelSizeZ (-(1 / 2)) = 1 := by
    unfold helperFunction.kernelSizeZ
    rw [hceil]
    decide
  have hn : helperFunction.kernelSizeN (-(1 / 2)) = 1 := by
    unfold helperFunction.kernelSizeN
    rw [hz]
    rfl
  have hu : helperFunction.kernelUnnorm (-(1 / 2)) 0 0 ≠ 0 := by
    unfold helperFunction.kernelUnnorm
    have hpi := Real.pi_pos
    positivity
  have hsum : helperFunction.kernelSum (-(1 / 2)) =
      helperFunction.kernelUnnorm (-(1 / 2)) 0 0 := by
    unfold helperFunction.kernelSum
    rw [hn]
    simp
  refine ⟨by norm_num, fun y x => helperFunction.kernelNorm (-(1 / 2)) y x, ?_, ?_⟩
  · unfold helperFunction.createGaussianKernel
    rw [hz, hn]
    norm_num
  · show helperFunction.kernelNorm (-(1 / 2)) 0 0 = 1
    unfold helperFunction.kernelNorm
    rw [hsum]
    exact div_self hu

/-- C1 is violated by the code: on a genuine 3-channel image the blue
channel is read at index 3, which raises `IndexError`; on an image with a
fourth channel the value actually combined is the one at channel index 3,
not channel index 2. -/
theorem rgbToGrayScratch_reads_channel_three :
    cannyLaneDetector.rgbToGrayScratch (.img3 1 1 3 fun _ _ _ => 0) =
      .error .indexError ∧
    ∃ g, cannyLaneDetector.rgbToGrayScratch (.img3 1 1 4 fun _ _ ch => (ch : ℝ)) =
        .ok (.img2 1 1 g) ∧
      g 0 0 = 0.2989 * 0 + 0.5870 * 1 + 0.1140 * 3 ∧
      g 0 0 ≠ 0.2989 * 0 + 0.5870 * 1 + 0.1140 * 2 := by
  exact ⟨rfl, _, rfl, by norm_num, by norm_num⟩

/-- C3 is violated by the code: a 3D input with exactly 3 channels raises
`IndexError` instead of returning normally, while a 3D input with 4
channels returns normally instead of failing. -/
theorem rgbToGrayScratch_dimension_check_mismatch :
    cannyLaneDetector.rgbToGrayScratch (.img3 2 2 3 fun _ _ _ => 0) =
      .error .indexError ∧
    ∃ g, cannyLaneDetector.rgbToGrayScratch (.img3 2 2 4 fun _ _ _ => 0) =
      .ok (.img2 2 2 g) :=
  ⟨rfl, _, rfl⟩

/-- C7 is violated by the code: grayscale conversion of a uniform 3-channel
image (R = G = B = 5) raises `IndexError` instead of returning the uniform
grid. -/
theorem rgbToGrayScratch_uniform_image_errors :
    cannyLaneDetector.rgbToGrayScratch (.img3 1 1 3 fun _ _ _ => 5) =
      .error .indexError := rfl

/-- C8: a 2-dimensional input grid is passed through unchanged, with the
same height, width and pixel values. -/
theorem rgbToGrayScratch_two_dim_passthrough (h w : ℕ) (d : ℕ → ℕ → ℝ) :
    cannyLaneDetector.rgbToGrayScratch (.img2 h w d) = .ok (.img2 h w d) := rfl

/-- C2 is violated by the code: on a 2×2 input with sigma = 1 the Gaussian
smoothing stage returns a 3×3 grid (the kernel itself), not a grid of the
input shape. -/
theorem applyGaussianBlurScratch_output_shape_mismatch :
    (∃ d, cannyLaneDetector.applyGaussianBlurScratch (.img2 2 2 fun _ _ => 0) 1 =
        .ok (.img2 3 3 d)) ∧
    ∀ d, cannyLaneDetector.applyGaussianBlurScratch (.img2 2 2 fun _ _ => 0) 1 ≠
        .ok (.img2 2 2 d) := by
  have hz : helperFunction.kernelSizeZ 1 = 3 := by
    unfold helperFunction.kernelSizeZ
    rw [Int.ceil_one]
    decide
  have hn : helperFunction.kernelSizeN 1 = 3 := by
    unfold helperFunction.kernelSizeN
    rw [hz]
    rfl
  have hmain : cannyLaneDetector.applyGaussianBlurScratch (.img2 2 2 fun _ _ => 0) 1 =
      .ok (.img2 3 3 fun y x => helperFunction.kernelNorm 1 y x) := by
    show helperFunction.createGaussianKernel 1 = _
    unfold helperFunction.createGaussianKernel
    rw [hz, hn]
    norm_num
  refine ⟨⟨_, hmain⟩, fun d h => ?_⟩
  rw [hmain] at h
  simp only [Except.ok.injEq, PyImage.img2.injEq] at h
  exact absurd h.1 (by decide)

/-- C10: the Gaussian smoothing stage raises `ValueError` on every input
whose number of dimensions is not 2, for every sigma. -/
theorem applyGaussianBlurScratch_rejects_non_two_dim (img : PyImage) (sigma : ℝ)
    (h : img.ndim ≠ 2) :
    cannyLaneDetector.applyGaussianBlurScratch img sigma = .error .valueError := by
  cases img with
  | img2 hh ww d => exact absurd rfl h
  | img3 _ _ _ _ => rfl
  | other _ => rfl

/-- Witness for C10 on a 3-dimensional input with sigma = 1. -/
theorem applyGaussianBlurScratch_rejects_non_two_dim_witness :
    (PyImage.img3 1 2 3 fun _ _ _ => 0).ndim ≠ 2 ∧
      cannyLaneDetector.applyGaussianBlurScratch (.img3 1 2 3 fun _ _ _ => 0) 1 =
        .error .valueError :=
  ⟨by simp [PyImage.ndim],
    applyGaussianBlurScratch_rejects_non_two_dim _ 1 (by simp [PyImage.ndim])⟩
